import Mathlib

/-!
# Verification of the chess-board segmentation pipeline

Shallow embedding of the geometry core of
`src/chess_board_segmentation/img_process_original.ipynb`:
`hor_vert_lines`, `intersections`, `cluster`, `closest_point`,
`find_corners` and `split_board`, together with proofs of the
documented properties.

Modelling conventions:

* Python floats are modelled by exact arithmetic: angles and line offsets
  by real numbers, point coordinates by an arbitrary linear ordered field
  `K` (instantiated at `ℚ` for concrete evaluations and at `ℝ` for the
  trigonometric stages).
* The source compares Euclidean distances (`scipy.spatial.distance.euclidean`)
  only with each other and with nonnegative bounds.  Since `Real.sqrt` is
  strictly monotone on nonnegative inputs, every such comparison is
  equivalent to the comparison of the squared distances with the squared
  bounds; the embedding therefore works with squared Euclidean distances
  (`dist2`) and squares each bound, an exact transformation.
* A Python exception that escapes a function is modelled by `Except.error`
  with a `CbError` value naming the failure mode.
-/

namespace ChessSeg

/-- The failure modes of the pipeline functions: `np.linalg.solve` raising
`LinAlgError` on a singular 2×2 system, the corner search exhausting its
working point set (`np.argmin` on an empty distance list), and
`scipy.cluster.hierarchy` rejecting a pairwise-distance matrix built from
fewer than two observations. -/
inductive CbError where
  | singularSystem
  | cornerNotFound
  | emptyDistanceMatrix
deriving DecidableEq

instance {ε α : Type} [DecidableEq ε] [DecidableEq α] : DecidableEq (Except ε α) := fun x y =>
  match x, y with
  | .ok a, .ok b => decidable_of_iff (a = b) (by simp)
  | .ok _, .error _ => isFalse (by simp)
  | .error _, .ok _ => isFalse (by simp)
  | .error e, .error f => decidable_of_iff (e = f) (by simp)

/-- A detected line in polar form `(rho, theta)`, exactly as consumed by the
notebook (`for distance, angle in lines`). -/
def Line : Type := ℝ × ℝ

/-- Source: `hor_vert_lines`.  A line goes to the vertical list `v` when
`angle < np.pi / 4 or angle > np.pi - np.pi / 4`, otherwise to the
horizontal list `h`; both lists keep the input order.  Returns `(h, v)`. -/
noncomputable def hor_vert_lines : List Line → List Line × List Line
  | [] => ([], [])
  | l :: ls =>
    let hv := hor_vert_lines ls
    if l.2 < Real.pi / 4 ∨ l.2 > Real.pi - Real.pi / 4 then
      (hv.1, l :: hv.2)
    else
      (l :: hv.1, hv.2)

/-- Determinant of the 2×2 system `[[cos a1, sin a1], [cos a2, sin a2]]`
solved by `np.linalg.solve` inside `intersections`. -/
noncomputable def lineDet (l1 l2 : Line) : ℝ :=
  Real.cos l1.2 * Real.sin l2.2 - Real.sin l1.2 * Real.cos l2.2

/-- Source: the body of the inner loop of `intersections`:
`np.linalg.solve(A, b)` for `A = [[cos a1, sin a1], [cos a2, sin a2]]`,
`b = [d1, d2]`.  In exact arithmetic the solver returns the unique (Cramer)
solution when the matrix is regular and raises `LinAlgError` when it is
singular, modelled by `CbError.singularSystem`. -/
noncomputable def solveLine (l1 l2 : Line) : Except CbError (ℝ × ℝ) :=
  if lineDet l1 l2 = 0 then .error .singularSystem
  else .ok ((l1.1 * Real.sin l2.2 - l2.1 * Real.sin l1.2) / lineDet l1 l2,
            (Real.cos l1.2 * l2.1 - Real.cos l2.2 * l1.1) / lineDet l1 l2)

/-- The inner loop of `intersections`: one horizontal line against every
vertical line, in input order. -/
noncomputable def intersectRow (l1 : Line) : List Line → Except CbError (List (ℝ × ℝ))
  | [] => .ok []
  | l2 :: v => do
    let p ← solveLine l1 l2
    let ps ← intersectRow l1 v
    .ok (p :: ps)

/-- Source: `intersections(h, v)`.  Nested loops, outer over `h`, inner over
`v`, appending `np.linalg.solve` results; an exception from the solver
aborts the whole call. -/
noncomputable def intersections : List Line → List Line → Except CbError (List (ℝ × ℝ))
  | [], _ => .ok []
  | l1 :: h, v => do
    let row ← intersectRow l1 v
    let rest ← intersections h v
    .ok (row ++ rest)

variable {K : Type} [LinearOrderedField K]

/-- A point `(x, y)` in image coordinates. -/
abbrev Pt (K : Type) := K × K

/-- Squared Euclidean distance between two points; see the module comment
for why distance comparisons are carried out on squares. -/
def dist2 (p q : Pt K) : K :=
  (p.1 - q.1) ^ 2 + (p.2 - q.2) ^ 2

/-- Whether an existing cluster contains a member within `max_dist` of `p`
(squared threshold `maxd2`). -/
def nearGroup (maxd2 : K) (p : Pt K) (g : List (Pt K)) : Bool :=
  g.any (fun q => decide (dist2 p q ≤ maxd2))

/-- One step of single-linkage flat clustering at cut `max_dist`: a new
point is merged with every existing cluster that has a member within the
threshold (merging those clusters with each other as well). -/
def addPoint (maxd2 : K) (gs : List (List (Pt K))) (p : Pt K) : List (List (Pt K)) :=
  let pr := gs.partition (nearGroup maxd2 p)
  (p :: pr.1.flatten) :: pr.2

/-- The flat clusters produced by
`fcluster(single(pdist(points)), max_dist, 'distance')`: the groups of
points connected by chains of steps of Euclidean length at most
`max_dist` (squared threshold `maxd2`), computed incrementally. -/
def clusterGroups (pts : List (Pt K)) (maxd2 : K) : List (List (Pt K)) :=
  pts.foldl (addPoint maxd2) []

/-- Source: the final `map` of `cluster`: the centroid
`(np.mean(xs), np.mean(ys))` of one cluster. -/
def centroid (g : List (Pt K)) : Pt K :=
  ((g.map Prod.fst).sum / g.length, (g.map Prod.snd).sum / g.length)

/-- Source: `cluster(points, max_dist=50)`.  `scipy.cluster.hierarchy`
raises on a pairwise-distance matrix with fewer than two observations
("The number of observations cannot be determined on an empty distance
matrix"), modelled by `CbError.emptyDistanceMatrix`; otherwise one centroid
per single-linkage flat cluster at cut `max_dist` is returned. -/
def cluster (pts : List (Pt K)) (maxd : K) : Except CbError (List (Pt K)) :=
  if pts.length < 2 then .error .emptyDistanceMatrix
  else .ok ((clusterGroups pts (maxd ^ 2)).map centroid)

/-- The chain relation of single-link clustering: one step joins two input
points whose Euclidean distance is at most the threshold (squared:
`dist2 a b ≤ maxd2`). -/
def chainStep (pts : List (Pt K)) (maxd2 : K) (a b : Pt K) : Prop :=
  a ∈ pts ∧ b ∈ pts ∧ dist2 a b ≤ maxd2

/-- Connection through a chain of input points, each consecutive pair
within the threshold. -/
def Chained (pts : List (Pt K)) (maxd2 : K) : Pt K → Pt K → Prop :=
  Relation.ReflTransGen (chainStep pts maxd2)

/-- The comparison step of `np.argmin` inside `closest_point`: keep the
current best unless the new candidate is strictly closer (so the first
index attaining the minimum wins, as `np.argmin` does). -/
def minStep (loc b q : Pt K) : Pt K :=
  if dist2 loc q < dist2 loc b then q else b

/-- Source: `closest_point(points, loc)` =
`points[np.argmin(dists)]` where `dists` are the Euclidean distances from
`loc`.  `np.argmin` takes the first index attaining the minimum and raises
on an empty list (modelled by `none`). -/
def closest_point (points : List (Pt K)) (loc : Pt K) : Option (Pt K) :=
  match points with
  | [] => none
  | p :: ps => some (ps.foldl (minStep loc) p)

/-- Python `list.remove`: delete the first occurrence. -/
def removeFirst (x : Pt K) : List (Pt K) → List (Pt K)
  | [] => []
  | y :: ys => if y = x then ys else y :: removeFirst x ys

/-- Source: `tolerance = 0.25` in `find_corners`. -/
def tolerance (K : Type) [LinearOrderedField K] : K := 1 / 4

/-- The acceptance window of `find_corners`:
`corner_grid_dist > (1 - tolerance) * grid_dist and
corner_grid_dist < (1 + tolerance) * grid_dist`, stated on squared
distances (both bounds are nonnegative, so squaring is exact). -/
def spacingOK (gd2 d2 : K) : Bool :=
  decide ((1 - tolerance K) ^ 2 * gd2 < d2) && decide (d2 < (1 + tolerance K) ^ 2 * gd2)

/-- The `while True` loop of `find_corners` for one image corner: pop the
working point closest to `img_corner`; if the distance from it to its
nearest remaining neighbour lies in the tolerance window, re-append it and
return it, otherwise leave it removed and retry.  The loop consumes at
least one working point per iteration, so fuel `points.length` makes the
fuel bound unreachable; an exhausted working set (`np.argmin` on an empty
list in the source) is `CbError.cornerNotFound`. -/
def find_one_corner (gd2 : K) (img_corner : Pt K) :
    Nat → List (Pt K) → Except CbError (Pt K × List (Pt K))
  | 0, _ => .error .cornerNotFound
  | fuel + 1, points =>
    match closest_point points img_corner with
    | none => .error .cornerNotFound
    | some cand =>
      let rest := removeFirst cand points
      match closest_point rest cand with
      | none => .error .cornerNotFound
      | some adj =>
        if spacingOK gd2 (dist2 cand adj) then .ok (cand, rest ++ [cand])
        else find_one_corner gd2 img_corner fuel rest

/-- The `for img_corner in img_corners` loop of `find_corners`, threading
the working point set and collecting the accepted board corners in
order. -/
def find_corners_loop (gd2 : K) :
    List (Pt K) → List (Pt K) → Except CbError (List (Pt K))
  | [], _ => .ok []
  | c :: cs, points => do
    let r ← find_one_corner gd2 c points.length points
    let rest ← find_corners_loop gd2 cs r.2
    .ok (r.1 :: rest)

/-- Source: `img_corners = [(0, 0), (0, img_dim[1]), img_dim,
(img_dim[0], 0)]` — top-left, bottom-left, bottom-right, top-right in
image coordinates (y grows downwards). -/
def img_corners (dim : ℤ × ℤ) : List (Pt K) :=
  [((0 : K), (0 : K)), ((0 : K), (dim.2 : K)),
   ((dim.1 : K), (dim.2 : K)), ((dim.1 : K), (0 : K))]

/-- Source: `find_corners(points, img_dim)`.  The centre point is the
working point closest to `(img_dim[0] / 2, img_dim[1] / 2)` (Python 2
integer division; image dimensions are nonnegative, where Lean's `ℤ`
division agrees with Python's floor division); `grid_dist` is the distance
from it to its nearest neighbour, computed with the centre temporarily
removed and then re-appended; then each of the four image corners is
resolved by `find_one_corner`. -/
def find_corners (points : List (Pt K)) (dim : ℤ × ℤ) : Except CbError (List (Pt K)) :=
  match closest_point points (((dim.1 / 2 : ℤ) : K), ((dim.2 / 2 : ℤ) : K)) with
  | none => .error .cornerNotFound
  | some center =>
    match closest_point (removeFirst center points) center with
    | none => .error .cornerNotFound
    | some adj =>
      find_corners_loop (dist2 center adj) (img_corners dim)
        (removeFirst center points ++ [center])

/-- Python slice `l[a:b]` (for `0 ≤ a ≤ b`, with the usual clamping at the
end of the list). -/
def pySlice (a b : Nat) (l : List α) : List α :=
  (l.drop a).take (b - a)

/-- Source: `split_board(img)`.  `sq_len = img.shape[0] / 8` (Python 2
integer division), then `img[i*sq_len:(i+1)*sq_len, j*sq_len:(j+1)*sq_len]`
with the outer loop over `i` (rows) and the inner loop over `j` (columns).
An image is a list of rows, each row a list of pixels of some type `α`. -/
def split_board (img : List (List α)) : List (List (List α)) :=
  let s := img.length / 8
  (List.range 8).flatMap (fun i =>
    (List.range 8).map (fun j =>
      (pySlice (i * s) ((i + 1) * s) img).map (pySlice (j * s) ((j + 1) * s))))

/-- Horizontal reassembly of one band of sub-images: row `r` of the band is
the concatenation of row `r` of each block. -/
def hstackBand (s : Nat) (blocks : List (List (List α))) : List (List α) :=
  (List.range s).map (fun r => (blocks.map (fun b => b.getD r [])).flatten)

/-- Reassembling a row-major sequence of 64 sub-images of side `s`:
8 consecutive blocks form one horizontal band, and the 8 bands are stacked
vertically. -/
def reassemble (s : Nat) (subs : List (List (List α))) : List (List α) :=
  (List.range 8).flatMap (fun i => hstackBand s (pySlice (8 * i) (8 * i + 8) subs))

/-- The synthetic input of claim C1: a perfect 9×9 grid of 81 points with
uniform spacing 10, bounding box `[0, 80] × [0, 80]`, listed row by row. -/
def grid81 : List (Pt ℚ) :=
[
  (0, 0), (0, 10), (0, 20), (0, 30), (0, 40), (0, 50), (0, 60), (0, 70), (0, 80),
  (10, 0), (10, 10), (10, 20), (10, 30), (10, 40), (10, 50), (10, 60), (10, 70), (10, 80),
  (20, 0), (20, 10), (20, 20), (20, 30), (20, 40), (20, 50), (20, 60), (20, 70), (20, 80),
  (30, 0), (30, 10), (30, 20), (30, 30), (30, 40), (30, 50), (30, 60), (30, 70), (30, 80),
  (40, 0), (40, 10), (40, 20), (40, 30), (40, 40), (40, 50), (40, 60), (40, 70), (40, 80),
  (50, 0), (50, 10), (50, 20), (50, 30), (50, 40), (50, 50), (50, 60), (50, 70), (50, 80),
  (60, 0), (60, 10), (60, 20), (60, 30), (60, 40), (60, 50), (60, 60), (60, 70), (60, 80),
  (70, 0), (70, 10), (70, 20), (70, 30), (70, 40), (70, 50), (70, 60), (70, 70), (70, 80),
  (80, 0), (80, 10), (80, 20), (80, 30), (80, 40), (80, 50), (80, 60), (80, 70), (80, 80)]

/-- The working set of `find_corners` on `grid81` after the centre point is removed. -/
def c1sA : List (Pt ℚ) :=
  [(0, 0), (0, 10), (0, 20), (0, 30), (0, 40), (0, 50), (0, 60), (0, 70), (0, 80), (10, 0), (10, 10), (10, 20), (10, 30), (10, 40), (10, 50), (10, 60), (10, 70), (10, 80), (20, 0), (20, 10), (20, 20), (20, 30), (20, 40), (20, 50), (20, 60), (20, 70), (20, 80), (30, 0), (30, 10), (30, 20), (30, 30), (30, 40), (30, 50), (30, 60), (30, 70), (30, 80), (40, 0), (40, 10), (40, 20), (40, 30), (40, 50), (40, 60), (40, 70), (40, 80), (50, 0), (50, 10), (50, 20), (50, 30), (50, 40), (50, 50), (50, 60), (50, 70), (50, 80), (60, 0), (60, 10), (60, 20), (60, 30), (60, 40), (60, 50), (60, 60), (60, 70), (60, 80), (70, 0), (70, 10), (70, 20), (70, 30), (70, 40), (70, 50), (70, 60), (70, 70), (70, 80), (80, 0), (80, 10), (80, 20), (80, 30), (80, 40), (80, 50), (80, 60), (80, 70), (80, 80)]

/-- The working set with the centre point re-appended at the end. -/
def c1sB : List (Pt ℚ) :=
  [(0, 0), (0, 10), (0, 20), (0, 30), (0, 40), (0, 50), (0, 60), (0, 70), (0, 80), (10, 0), (10, 10), (10, 20), (10, 30), (10, 40), (10, 50), (10, 60), (10, 70), (10, 80), (20, 0), (20, 10), (20, 20), (20, 30), (20, 40), (20, 50), (20, 60), (20, 70), (20, 80), (30, 0), (30, 10), (30, 20), (30, 30), (30, 40), (30, 50), (30, 60), (30, 70), (30, 80), (40, 0), (40, 10), (40, 20), (40, 30), (40, 50), (40, 60), (40, 70), (40, 80), (50, 0), (50, 10), (50, 20), (50, 30), (50, 40), (50, 50), (50, 60), (50, 70), (50, 80), (60, 0), (60, 10), (60, 20), (60, 30), (60, 40), (60, 50), (60, 60), (60, 70), (60, 80), (70, 0), (70, 10), (70, 20), (70, 30), (70, 40), (70, 50), (70, 60), (70, 70), (70, 80), (80, 0), (80, 10), (80, 20), (80, 30), (80, 40), (80, 50), (80, 60), (80, 70), (80, 80), (40, 40)]

/-- The working set after the corner-1 candidate is popped. -/
def c1sR1 : List (Pt ℚ) :=
  [(0, 10), (0, 20), (0, 30), (0, 40), (0, 50), (0, 60), (0, 70), (0, 80), (10, 0), (10, 10), (10, 20), (10, 30), (10, 40), (10, 50), (10, 60), (10, 70), (10, 80), (20, 0), (20, 10), (20, 20), (20, 30), (20, 40), (20, 50), (20, 60), (20, 70), (20, 80), (30, 0), (30, 10), (30, 20), (30, 30), (30, 40), (30, 50), (30, 60), (30, 70), (30, 80), (40, 0), (40, 10), (40, 20), (40, 30), (40, 50), (40, 60), (40, 70), (40, 80), (50, 0), (50, 10), (50, 20), (50, 30), (50, 40), (50, 50), (50, 60), (50, 70), (50, 80), (60, 0), (60, 10), (60, 20), (60, 30), (60, 40), (60, 50), (60, 60), (60, 70), (60, 80), (70, 0), (70, 10), (70, 20), (70, 30), (70, 40), (70, 50), (70, 60), (70, 70), (70, 80), (80, 0), (80, 10), (80, 20), (80, 30), (80, 40), (80, 50), (80, 60), (80, 70), (80, 80), (40, 40)]

/-- The working set after corner 1 is accepted and re-appended. -/
def c1s1 : List (Pt ℚ) :=
  [(0, 10), (0, 20), (0, 30), (0, 40), (0, 50), (0, 60), (0, 70), (0, 80), (10, 0), (10, 10), (10, 20), (10, 30), (10, 40), (10, 50), (10, 60), (10, 70), (10, 80), (20, 0), (20, 10), (20, 20), (20, 30), (20, 40), (20, 50), (20, 60), (20, 70), (20, 80), (30, 0), (30, 10), (30, 20), (30, 30), (30, 40), (30, 50), (30, 60), (30, 70), (30, 80), (40, 0), (40, 10), (40, 20), (40, 30), (40, 50), (40, 60), (40, 70), (40, 80), (50, 0), (50, 10), (50, 20), (50, 30), (50, 40), (50, 50), (50, 60), (50, 70), (50, 80), (60, 0), (60, 10), (60, 20), (60, 30), (60, 40), (60, 50), (60, 60), (60, 70), (60, 80), (70, 0), (70, 10), (70, 20), (70, 30), (70, 40), (70, 50), (70, 60), (70, 70), (70, 80), (80, 0), (80, 10), (80, 20), (80, 30), (80, 40), (80, 50), (80, 60), (80, 70), (80, 80), (40, 40), (0, 0)]

/-- The working set after the corner-2 candidate is popped. -/
def c1sR2 : List (Pt ℚ) :=
  [(0, 10), (0, 20), (0, 30), (0, 40), (0, 50), (0, 60), (0, 70), (10, 0), (10, 10), (10, 20), (10, 30), (10, 40), (10, 50), (10, 60), (10, 70), (10, 80), (20, 0), (20, 10), (20, 20), (20, 30), (20, 40), (20, 50), (20, 60), (20, 70), (20, 80), (30, 0), (30, 10), (30, 20), (30, 30), (30, 40), (30, 50), (30, 60), (30, 70), (30, 80), (40, 0), (40, 10), (40, 20), (40, 30), (40, 50), (40, 60), (40, 70), (40, 80), (50, 0), (50, 10), (50, 20), (50, 30), (50, 40), (50, 50), (50, 60), (50, 70), (50, 80), (60, 0), (60, 10), (60, 20), (60, 30), (60, 40), (60, 50), (60, 60), (60, 70), (60, 80), (70, 0), (70, 10), (70, 20), (70, 30), (70, 40), (70, 50), (70, 60), (70, 70), (70, 80), (80, 0), (80, 10), (80, 20), (80, 30), (80, 40), (80, 50), (80, 60), (80, 70), (80, 80), (40, 40), (0, 0)]

/-- The working set after corner 2 is accepted and re-appended. -/
def c1s2 : List (Pt ℚ) :=
  [(0, 10), (0, 20), (0, 30), (0, 40), (0, 50), (0, 60), (0, 70), (10, 0), (10, 10), (10, 20), (10, 30), (10, 40), (10, 50), (10, 60), (10, 70), (10, 80), (20, 0), (20, 10), (20, 20), (20, 30), (20, 40), (20, 50), (20, 60), (20, 70), (20, 80), (30, 0), (30, 10), (30, 20), (30, 30), (30, 40), (30, 50), (30, 60), (30, 70), (30, 80), (40, 0), (40, 10), (40, 20), (40, 30), (40, 50), (40, 60), (40, 70), (40, 80), (50, 0), (50, 10), (50, 20), (50, 30), (50, 40), (50, 50), (50, 60), (50, 70), (50, 80), (60, 0), (60, 10), (60, 20), (60, 30), (60, 40), (60, 50), (60, 60), (60, 70), (60, 80), (70, 0), (70, 10), (70, 20), (70, 30), (70, 40), (70, 50), (70, 60), (70, 70), (70, 80), (80, 0), (80, 10), (80, 20), (80, 30), (80, 40), (80, 50), (80, 60), (80, 70), (80, 80), (40, 40), (0, 0), (0, 80)]

/-- The working set after the corner-3 candidate is popped. -/
def c1sR3 : List (Pt ℚ) :=
  [(0, 10), (0, 20), (0, 30), (0, 40), (0, 50), (0, 60), (0, 70), (10, 0), (10, 10), (10, 20), (10, 30), (10, 40), (10, 50), (10, 60), (10, 70), (10, 80), (20, 0), (20, 10), (20, 20), (20, 30), (20, 40), (20, 50), (20, 60), (20, 70), (20, 80), (30, 0), (30, 10), (30, 20), (30, 30), (30, 40), (30, 50), (30, 60), (30, 70), (30, 80), (40, 0), (40, 10), (40, 20), (40, 30), (40, 50), (40, 60), (40, 70), (40, 80), (50, 0), (50, 10), (50, 20), (50, 30), (50, 40), (50, 50), (50, 60), (50, 70), (50, 80), (60, 0), (60, 10), (60, 20), (60, 30), (60, 40), (60, 50), (60, 60), (60, 70), (60, 80), (70, 0), (70, 10), (70, 20), (70, 30), (70, 40), (70, 50), (70, 60), (70, 70), (70, 80), (80, 0), (80, 10), (80, 20), (80, 30), (80, 40), (80, 50), (80, 60), (80, 70), (40, 40), (0, 0), (0, 80)]

/-- The working set after corner 3 is accepted and re-appended. -/
def c1s3 : List (Pt ℚ) :=
  [(0, 10), (0, 20), (0, 30), (0, 40), (0, 50), (0, 60), (0, 70), (10, 0), (10, 10), (10, 20), (10, 30), (10, 40), (10, 50), (10, 60), (10, 70), (10, 80), (20, 0), (20, 10), (20, 20), (20, 30), (20, 40), (20, 50), (20, 60), (20, 70), (20, 80), (30, 0), (30, 10), (30, 20), (30, 30), (30, 40), (30, 50), (30, 60), (30, 70), (30, 80), (40, 0), (40, 10), (40, 20), (40, 30), (40, 50), (40, 60), (40, 70), (40, 80), (50, 0), (50, 10), (50, 20), (50, 30), (50, 40), (50, 50), (50, 60), (50, 70), (50, 80), (60, 0), (60, 10), (60, 20), (60, 30), (60, 40), (60, 50), (60, 60), (60, 70), (60, 80), (70, 0), (70, 10), (70, 20), (70, 30), (70, 40), (70, 50), (70, 60), (70, 70), (70, 80), (80, 0), (80, 10), (80, 20), (80, 30), (80, 40), (80, 50), (80, 60), (80, 70), (40, 40), (0, 0), (0, 80), (80, 80)]

/-- The working set after the corner-4 candidate is popped. -/
def c1sR4 : List (Pt ℚ) :=
  [(0, 10), (0, 20), (0, 30), (0, 40), (0, 50), (0, 60), (0, 70), (10, 0), (10, 10), (10, 20), (10, 30), (10, 40), (10, 50), (10, 60), (10, 70), (10, 80), (20, 0), (20, 10), (20, 20), (20, 30), (20, 40), (20, 50), (20, 60), (20, 70), (20, 80), (30, 0), (30, 10), (30, 20), (30, 30), (30, 40), (30, 50), (30, 60), (30, 70), (30, 80), (40, 0), (40, 10), (40, 20), (40, 30), (40, 50), (40, 60), (40, 70), (40, 80), (50, 0), (50, 10), (50, 20), (50, 30), (50, 40), (50, 50), (50, 60), (50, 70), (50, 80), (60, 0), (60, 10), (60, 20), (60, 30), (60, 40), (60, 50), (60, 60), (60, 70), (60, 80), (70, 0), (70, 10), (70, 20), (70, 30), (70, 40), (70, 50), (70, 60), (70, 70), (70, 80), (80, 10), (80, 20), (80, 30), (80, 40), (80, 50), (80, 60), (80, 70), (40, 40), (0, 0), (0, 80), (80, 80)]

/-- The working set after corner 4 is accepted and re-appended. -/
def c1s4 : List (Pt ℚ) :=
  [(0, 10), (0, 20), (0, 30), (0, 40), (0, 50), (0, 60), (0, 70), (10, 0), (10, 10), (10, 20), (10, 30), (10, 40), (10, 50), (10, 60), (10, 70), (10, 80), (20, 0), (20, 10), (20, 20), (20, 30), (20, 40), (20, 50), (20, 60), (20, 70), (20, 80), (30, 0), (30, 10), (30, 20), (30, 30), (30, 40), (30, 50), (30, 60), (30, 70), (30, 80), (40, 0), (40, 10), (40, 20), (40, 30), (40, 50), (40, 60), (40, 70), (40, 80), (50, 0), (50, 10), (50, 20), (50, 30), (50, 40), (50, 50), (50, 60), (50, 70), (50, 80), (60, 0), (60, 10), (60, 20), (60, 30), (60, 40), (60, 50), (60, 60), (60, 70), (60, 80), (70, 0), (70, 10), (70, 20), (70, 30), (70, 40), (70, 50), (70, 60), (70, 70), (70, 80), (80, 10), (80, 20), (80, 30), (80, 40), (80, 50), (80, 60), (80, 70), (40, 40), (0, 0), (0, 80), (80, 80), (80, 0)]

/-- Invariant of the incremental clustering fold: the groups cover exactly
the points seen so far, are pairwise disjoint, contain every
within-threshold pair together, and each group is chain-connected. -/
def GroupInv (maxd2 : K) (seen : List (Pt K)) (gs : List (List (Pt K))) : Prop :=
  (∀ g ∈ gs, ∀ x ∈ g, x ∈ seen) ∧
  (∀ x ∈ seen, ∃ g ∈ gs, x ∈ g) ∧
  List.Pairwise (fun g h => ∀ x ∈ g, x ∉ h) gs ∧
  (∀ a ∈ seen, ∀ b ∈ seen, dist2 a b ≤ maxd2 → ∃ g ∈ gs, a ∈ g ∧ b ∈ g) ∧
  (∀ g ∈ gs, ∀ a ∈ g, ∀ b ∈ g, Chained seen maxd2 a b)

/-!
## Theorems

`Rat.add`, `Rat.mul`, `Rat.inv` and `Rat.sub` are `@[irreducible]` in the
library, which blocks the reductions performed by `decide` on concrete
rational inputs; restore the default reducibility locally.
-/

attribute [local semireducible] Rat.add Rat.mul Rat.inv Rat.sub

theorem exceptBind_ok {E A B : Type} (a : A) (f : A → Except E B) :
    (Except.ok a >>= f : Except E B) = f a := rfl

theorem exceptBind_error {E A B : Type} (e : E) (f : A → Except E B) :
    (Except.error e >>= f : Except E B) = Except.error e := rfl

theorem find_one_corner_cases {K : Type} [LinearOrderedField K] (gd2 : K) (c : Pt K) :
    ∀ (fuel : Nat) (points : List (Pt K)),
      (∃ r, find_one_corner gd2 c fuel points = .ok r) ∨
      find_one_corner gd2 c fuel points = .error .cornerNotFound := by
  intro fuel
  induction fuel with
  | zero => intro points; right; rfl
  | succ n ih =>
    intro points
    simp only [find_one_corner]
    cases h1 : closest_point points c with
    | none => right; rfl
    | some cand =>
      simp only []
      cases h2 : closest_point (removeFirst cand points) cand with
      | none => right; rfl
      | some adj =>
        simp only []
        by_cases h3 : spacingOK gd2 (dist2 cand adj) = true
        · rw [if_pos h3]; exact Or.inl ⟨_, rfl⟩
        · rw [if_neg h3]; exact ih _

theorem find_corners_loop_cases {K : Type} [LinearOrderedField K] (gd2 : K) :
    ∀ (cs points : List (Pt K)),
      (∃ r, find_corners_loop gd2 cs points = .ok r ∧ r.length = cs.length) ∨
      find_corners_loop gd2 cs points = .error .cornerNotFound := by
  intro cs
  induction cs with
  | nil => intro points; left; exact ⟨[], rfl, rfl⟩
  | cons c cs ih =>
    intro points
    rw [find_corners_loop]
    rcases find_one_corner_cases gd2 c points.length points with ⟨r, hr⟩ | hr
    · rw [hr, exceptBind_ok]
      rcases ih r.2 with ⟨rest, hrest, hlen⟩ | hrest
      · left
        exact ⟨r.1 :: rest, by rw [hrest, exceptBind_ok], by simp [hlen]⟩
      · right
        rw [hrest, exceptBind_error]
    · right; rw [hr, exceptBind_error]

/-- Shared helper: every run of `find_corners` ends in `.ok` with a
4-element list or in `.error .cornerNotFound`. -/
theorem find_corners_cases {K : Type} [LinearOrderedField K]
    (points : List (Pt K)) (dim : ℤ × ℤ) :
    (∃ cs, find_corners points dim = .ok cs ∧ cs.length = 4) ∨
    find_corners points dim = .error .cornerNotFound := by
  rw [find_corners]
  cases h1 : closest_point points (((dim.1 / 2 : ℤ) : K), ((dim.2 / 2 : ℤ) : K)) with
  | none => right; rfl
  | some center =>
    simp only []
    cases h2 : closest_point (removeFirst center points) center with
    | none => right; rfl
    | some adj =>
      simp only []
      rcases find_corners_loop_cases (dist2 center adj) (img_corners dim)
        (removeFirst center points ++ [center]) with ⟨r, hr, hlen⟩ | hr
      · left; exact ⟨r, hr, by simpa [img_corners] using hlen⟩
      · right; exact hr

/-- C5: for every input, `find_corners` terminates with either a corner
list (of 4 points) or the `CornerNotFound` failure: exhaustion of the
working set is surfaced as that single error value and nothing else (no
other error, no non-termination). -/
theorem c5_find_corners_total {K : Type} [LinearOrderedField K]
    (points : List (Pt K)) (dim : ℤ × ℤ) :
    (∃ cs, find_corners points dim = .ok cs ∧ cs.length = 4) ∨
    find_corners points dim = .error .cornerNotFound :=
  find_corners_cases points dim

/-- Counterexample to C6 as stated: on the two-point input
`[(1,1), (11,1)]` with image dimensions `(2,2)` the corner finder succeeds
and returns the same point `(1,1)` for all four image corners, so the four
returned points are not mutually distinct. -/
theorem c6_counterexample :
    find_corners (K := ℚ) [(1, 1), (11, 1)] (2, 2) =
      .ok [(1, 1), (1, 1), (1, 1), (1, 1)] ∧
    ¬ ([((1 : ℚ), (1 : ℚ)), (1, 1), (1, 1), (1, 1)] : List (Pt ℚ)).Pairwise (fun a b => a ≠ b) :=
  ⟨by decide, by decide⟩

/-- C6 (amended): whenever `find_corners` succeeds, the returned corner
set has exactly 4 entries (one per image corner); the source does not
guarantee that they are mutually distinct. -/
theorem c6_corner_set_size {K : Type} [LinearOrderedField K]
    (points : List (Pt K)) (dim : ℤ × ℤ) (cs : List (Pt K))
    (h : find_corners points dim = .ok cs) : cs.length = 4 := by
  rcases find_corners_cases points dim with ⟨cs2, hok, hlen⟩ | herr
  · rw [h] at hok
    cases hok
    exact hlen
  · rw [h] at herr
    cases herr

/-- Witness for `c6_corner_set_size` at a concrete input. -/
theorem c6_corner_set_size_witness :
    find_corners (K := ℚ) [(1, 1), (11, 1)] (2, 2) =
      .ok [(1, 1), (1, 1), (1, 1), (1, 1)] ∧
    ([((1 : ℚ), (1 : ℚ)), (1, 1), (1, 1), (1, 1)] : List (Pt ℚ)).length = 4 :=
  ⟨by decide, c6_corner_set_size [(1, 1), (11, 1)] (2, 2) _ (by decide)⟩

theorem c1cp_a : closest_point grid81 ((40, 40) : Pt ℚ) = some (40, 40) := by
  norm_num [grid81, closest_point, List.foldl_cons, List.foldl_nil, minStep, dist2]

theorem c1rm_a : removeFirst ((40, 40) : Pt ℚ) grid81 = c1sA := by decide

theorem c1cp_b : closest_point c1sA ((40, 40) : Pt ℚ) = some (30, 40) := by
  norm_num [c1sA, closest_point, List.foldl_cons, List.foldl_nil, minStep, dist2]

theorem c1cp_k1 : closest_point c1sB ((0, 0) : Pt ℚ) = some (0, 0) := by
  norm_num [c1sB, closest_point, List.foldl_cons, List.foldl_nil, minStep, dist2]

theorem c1rm_k1 : removeFirst ((0, 0) : Pt ℚ) c1sB = c1sR1 := by decide

theorem c1cp_k1b : closest_point c1sR1 ((0, 0) : Pt ℚ) = some (0, 10) := by
  norm_num [c1sR1, closest_point, List.foldl_cons, List.foldl_nil, minStep, dist2]

theorem c1fc_1 : find_one_corner (100 : ℚ) ((0, 0) : Pt ℚ) 81 c1sB =
    .ok (((0, 0) : Pt ℚ), c1s1) := by
  rw [find_one_corner]
  rw [c1cp_k1]
  simp only []
  rw [c1rm_k1]
  rw [c1cp_k1b]
  simp only []
  rw [show dist2 ((0, 0) : Pt ℚ) ((0, 10) : Pt ℚ) = 100 from by decide]
  rw [if_pos (by decide : spacingOK (100 : ℚ) 100 = true)]
  decide

theorem c1cp_k2 : closest_point c1s1 ((0, 80) : Pt ℚ) = some (0, 80) := by
  norm_num [c1s1, closest_point, List.foldl_cons, List.foldl_nil, minStep, dist2]

theorem c1rm_k2 : removeFirst ((0, 80) : Pt ℚ) c1s1 = c1sR2 := by decide

theorem c1cp_k2b : closest_point c1sR2 ((0, 80) : Pt ℚ) = some (0, 70) := by
  norm_num [c1sR2, closest_point, List.foldl_cons, List.foldl_nil, minStep, dist2]

theorem c1fc_2 : find_one_corner (100 : ℚ) ((0, 80) : Pt ℚ) 81 c1s1 =
    .ok (((0, 80) : Pt ℚ), c1s2) := by
  rw [find_one_corner]
  rw [c1cp_k2]
  simp only []
  rw [c1rm_k2]
  rw [c1cp_k2b]
  simp only []
  rw [show dist2 ((0, 80) : Pt ℚ) ((0, 70) : Pt ℚ) = 100 from by decide]
  rw [if_pos (by decide : spacingOK (100 : ℚ) 100 = true)]
  decide

theorem c1cp_k3 : closest_point c1s2 ((80, 80) : Pt ℚ) = some (80, 80) := by
  norm_num [c1s2, closest_point, List.foldl_cons, List.foldl_nil, minStep, dist2]

theorem c1rm_k3 : removeFirst ((80, 80) : Pt ℚ) c1s2 = c1sR3 := by decide

theorem c1cp_k3b : closest_point c1sR3 ((80, 80) : Pt ℚ) = some (70, 80) := by
  norm_num [c1sR3, closest_point, List.foldl_cons, List.foldl_nil, minStep, dist2]

theorem c1fc_3 : find_one_corner (100 : ℚ) ((80, 80) : Pt ℚ) 81 c1s2 =
    .ok (((80, 80) : Pt ℚ), c1s3) := by
  rw [find_one_corner]
  rw [c1cp_k3]
  simp only []
  rw [c1rm_k3]
  rw [c1cp_k3b]
  simp only []
  rw [show dist2 ((80, 80) : Pt ℚ) ((70, 80) : Pt ℚ) = 100 from by decide]
  rw [if_pos (by decide : spacingOK (100 : ℚ) 100 = true)]
  decide

theorem c1cp_k4 : closest_point c1s3 ((80, 0) : Pt ℚ) = some (80, 0) := by
  norm_num [c1s3, closest_point, List.foldl_cons, List.foldl_nil, minStep, dist2]

theorem c1rm_k4 : removeFirst ((80, 0) : Pt ℚ) c1s3 = c1sR4 := by decide

theorem c1cp_k4b : closest_point c1sR4 ((80, 0) : Pt ℚ) = some (70, 0) := by
  norm_num [c1sR4, closest_point, List.foldl_cons, List.foldl_nil, minStep, dist2]

theorem c1fc_4 : find_one_corner (100 : ℚ) ((80, 0) : Pt ℚ) 81 c1s3 =
    .ok (((80, 0) : Pt ℚ), c1s4) := by
  rw [find_one_corner]
  rw [c1cp_k4]
  simp only []
  rw [c1rm_k4]
  rw [c1cp_k4b]
  simp only []
  rw [show dist2 ((80, 0) : Pt ℚ) ((70, 0) : Pt ℚ) = 100 from by decide]
  rw [if_pos (by decide : spacingOK (100 : ℚ) 100 = true)]
  decide

theorem c1lp_4 : find_corners_loop (100 : ℚ) ([(80, 0)] : List (Pt ℚ)) c1s3 =
    .ok [(80, 0)] := by
  rw [find_corners_loop]
  rw [show List.length c1s3 = 81 from rfl]
  rw [c1fc_4]
  rw [exceptBind_ok]
  simp only []
  rw [find_corners_loop]
  rw [exceptBind_ok]

theorem c1lp_3 : find_corners_loop (100 : ℚ) ([(80, 80), (80, 0)] : List (Pt ℚ)) c1s2 =
    .ok [(80, 80), (80, 0)] := by
  rw [find_corners_loop]
  rw [show List.length c1s2 = 81 from rfl]
  rw [c1fc_3]
  rw [exceptBind_ok]
  simp only []
  rw [c1lp_4]
  rw [exceptBind_ok]

theorem c1lp_2 : find_corners_loop (100 : ℚ) ([(0, 80), (80, 80), (80, 0)] : List (Pt ℚ)) c1s1 =
    .ok [(0, 80), (80, 80), (80, 0)] := by
  rw [find_corners_loop]
  rw [show List.length c1s1 = 81 from rfl]
  rw [c1fc_2]
  rw [exceptBind_ok]
  simp only []
  rw [c1lp_3]
  rw [exceptBind_ok]

theorem c1lp_1 : find_corners_loop (100 : ℚ) ([(0, 0), (0, 80), (80, 80), (80, 0)] : List (Pt ℚ)) c1sB =
    .ok [(0, 0), (0, 80), (80, 80), (80, 0)] := by
  rw [find_corners_loop]
  rw [show List.length c1sB = 81 from rfl]
  rw [c1fc_1]
  rw [exceptBind_ok]
  simp only []
  rw [c1lp_2]
  rw [exceptBind_ok]

/-- C1: on the synthetic perfect 9×9 grid of 81 uniformly spaced points
(spacing 10), with image dimensions `(80, 80)` equal to the grid bounding
box, `find_corners` returns exactly the four outermost grid points, in the
order top-left, bottom-left, bottom-right, top-right. -/
theorem c1_find_corners_grid :
    find_corners grid81 (80, 80) =
      .ok [((0 : ℚ), 0), (0, 80), (80, 80), (80, 0)] := by
  rw [find_corners]
  rw [show (((((80, 80) : ℤ × ℤ).1 / 2 : ℤ)) : ℚ) = 40 from by norm_num]
  rw [c1cp_a]
  simp only []
  rw [c1rm_a]
  rw [c1cp_b]
  simp only []
  rw [show dist2 ((40, 40) : Pt ℚ) ((30, 40) : Pt ℚ) = 100 from by decide]
  rw [show img_corners (K := ℚ) (80, 80) =
    ([(0, 0), (0, 80), (80, 80), (80, 0)] : List (Pt ℚ)) from by norm_num [img_corners]]
  rw [show c1sA ++ ([(40, 40)] : List (Pt ℚ)) = c1sB from by decide]
  exact c1lp_1


/-! ## Board splitter: helper lemmas -/

theorem pySlice_length {A : Type} (a b : Nat) (l : List A) :
    (pySlice a b l).length = min (b - a) (l.length - a) := by
  simp [pySlice]

theorem pySlice_append_left {A : Type} (a b : Nat) (l1 l2 : List A)
    (hb : b ≤ l1.length) (hab : a ≤ b) :
    pySlice a b (l1 ++ l2) = pySlice a b l1 := by
  unfold pySlice
  rw [List.drop_append_of_le_length (hab.trans hb),
      List.take_append_of_le_length (by simp; omega)]

theorem flatMap_const_length {B : Type} (f : Nat → List B) (c : Nat)
    (hf : ∀ i, (f i).length = c) :
    ∀ k, ((List.range k).flatMap f).length = c * k := by
  intro k
  induction k with
  | zero => simp
  | succ k ih =>
    rw [List.range_succ, List.flatMap_append]
    simp only [List.flatMap_cons, List.flatMap_nil, List.append_nil, List.length_append, ih, hf]
    ring

theorem pySlice_flatMap {B : Type} (f : Nat → List B) (c : Nat)
    (hc : ∀ i, (f i).length = c) :
    ∀ (k i : Nat), i < k →
      pySlice (c * i) (c * i + c) ((List.range k).flatMap f) = f i := by
  intro k
  induction k with
  | zero => intro i hik; omega
  | succ k ih =>
    intro i hik
    rw [List.range_succ, List.flatMap_append]
    simp only [List.flatMap_cons, List.flatMap_nil, List.append_nil]
    rcases Nat.lt_or_ge i k with hlt | hge
    · rw [pySlice_append_left]
      · exact ih i hlt
      · rw [flatMap_const_length f c hc k]
        have : c * (i + 1) ≤ c * k := Nat.mul_le_mul_left c hlt
        calc c * i + c = c * (i + 1) := by ring
          _ ≤ c * k := this
      · omega
    · have hik2 : i = k := by omega
      subst hik2
      unfold pySlice
      rw [List.drop_left' (flatMap_const_length f c hc i)]
      rw [Nat.add_sub_cancel_left]
      rw [← hc i, List.take_length]

theorem slice_join {A : Type} (S : Nat) :
    ∀ (k : Nat) (l : List A),
      (List.range k).flatMap (fun j => pySlice (j * S) ((j + 1) * S) l) = l.take (k * S) := by
  intro k
  induction k with
  | zero => intro l; simp
  | succ k ih =>
    intro l
    rw [List.range_succ, List.flatMap_append]
    simp only [List.flatMap_cons, List.flatMap_nil, List.append_nil, ih]
    unfold pySlice
    have h1 : (k + 1) * S - k * S = S := by
      rw [Nat.succ_mul, Nat.add_sub_cancel_left]
    rw [h1, Nat.succ_mul, List.take_add]

theorem getD_map_of_lt {A B : Type} (f : A → B) (l : List A) (n : Nat)
    (d : B) (d2 : A) (h : n < l.length) :
    (l.map f).getD n d = f (l.getD n d2) := by
  simp [List.getD_eq_getElem?_getD, List.getElem?_eq_getElem, h]

theorem map_getD_self {A : Type} :
    ∀ (l : List A) (d : A), (List.range l.length).map (fun r => l.getD r d) = l := by
  intro l
  induction l with
  | nil => intro d; simp
  | cons x xs ih =>
    intro d
    rw [List.length_cons, List.range_succ_eq_map, List.map_cons, List.map_map]
    have hcomp : ∀ r ∈ List.range xs.length,
        ((fun r => (x :: xs).getD r d) ∘ Nat.succ) r = xs.getD r d := by
      intro r hr
      simp [Function.comp, List.getD_cons_succ]
    rw [List.map_congr_left hcomp, List.getD_cons_zero, ih d]

theorem getD_mem_of_lt {A : Type} (l : List A) (n : Nat) (d : A)
    (h : n < l.length) : l.getD n d ∈ l := by
  rw [List.getD_eq_getElem?_getD, List.getElem?_eq_getElem h]
  exact List.getElem_mem h

theorem hstackBand_band {A : Type} (S : Nat) (band : List (List A))
    (hS : band.length = S) (hrow : ∀ row ∈ band, row.length = 8 * S) :
    hstackBand S ((List.range 8).map (fun j => band.map (pySlice (j * S) ((j + 1) * S)))) = band := by
  unfold hstackBand
  have hmain : ∀ r ∈ List.range S,
      (((List.range 8).map (fun j => band.map (pySlice (j * S) ((j + 1) * S)))).map
        (fun b => b.getD r [])).flatten = band.getD r [] := by
    intro r hr
    have hrS : r < band.length := by
      rw [hS]; exact List.mem_range.mp hr
    rw [List.map_map]
    have hcongr : ∀ j ∈ List.range 8,
        ((fun b => List.getD b r []) ∘ fun j => band.map (pySlice (j * S) ((j + 1) * S))) j =
        pySlice (j * S) ((j + 1) * S) (band.getD r []) := by
      intro j hj
      exact getD_map_of_lt _ band r [] [] hrS
    rw [List.map_congr_left hcongr]
    rw [← List.flatMap_def]
    rw [slice_join S 8 (band.getD r [])]
    have hlen : (band.getD r []).length = 8 * S := hrow _ (getD_mem_of_lt band r [] hrS)
    rw [← hlen, List.take_length]
  rw [List.map_congr_left hmain, ← hS, map_getD_self]

theorem split_board_expand {A : Type} (img : List (List A)) :
    split_board img =
      (List.range 8).flatMap (fun i =>
        (List.range 8).map (fun j =>
          (pySlice (i * (img.length / 8)) ((i + 1) * (img.length / 8)) img).map
            (pySlice (j * (img.length / 8)) ((j + 1) * (img.length / 8))))) := rfl

theorem split_board_band {A : Type} (img : List (List A)) (S : Nat)
    (himg : img.length = 8 * S) (i : Nat) (hi : i < 8) :
    pySlice (8 * i) (8 * i + 8) (split_board img) =
      (List.range 8).map (fun j =>
        (pySlice (i * S) ((i + 1) * S) img).map (pySlice (j * S) ((j + 1) * S))) := by
  have hs : img.length / 8 = S := by omega
  rw [split_board_expand, hs]
  exact pySlice_flatMap _ 8 (fun _ => by simp) 8 i hi

theorem split_board_length {A : Type} (img : List (List A)) :
    (split_board img).length = 64 := by
  rw [split_board_expand]
  rw [flatMap_const_length _ 8 (fun _ => by simp) 8]

theorem split_board_dims {A : Type} (img : List (List A))
    (hrows : ∀ row ∈ img, row.length = img.length) :
    ∀ sq ∈ split_board img,
      sq.length = img.length / 8 ∧ ∀ row ∈ sq, row.length = img.length / 8 := by
  intro sq hsq
  rw [split_board_expand] at hsq
  rcases List.mem_flatMap.mp hsq with ⟨i, hi, hsq2⟩
  rcases List.mem_map.mp hsq2 with ⟨j, hj, rfl⟩
  have hi8 : i < 8 := List.mem_range.mp hi
  have hj8 : j < 8 := List.mem_range.mp hj
  have hdivle : 8 * (img.length / 8) ≤ img.length := by omega
  constructor
  · rw [List.length_map, pySlice_length]
    have h1 : (i + 1) * (img.length / 8) = i * (img.length / 8) + img.length / 8 :=
      Nat.succ_mul i (img.length / 8)
    have h2 : (i + 1) * (img.length / 8) ≤ 8 * (img.length / 8) :=
      Nat.mul_le_mul_right _ (by omega)
    omega
  · intro row hrow
    rcases List.mem_map.mp hrow with ⟨r0, hr0, rfl⟩
    have hr0img : r0 ∈ img := by
      have h1 : r0 ∈ img.drop (i * (img.length / 8)) :=
        (List.take_sublist _ _).subset hr0
      exact (List.drop_sublist _ _).subset h1
    rw [pySlice_length, hrows r0 hr0img]
    have h1 : (j + 1) * (img.length / 8) = j * (img.length / 8) + img.length / 8 :=
      Nat.succ_mul j (img.length / 8)
    have h2 : (j + 1) * (img.length / 8) ≤ 8 * (img.length / 8) :=
      Nat.mul_le_mul_right _ (by omega)
    omega

/-! ## C7: the board splitter round-trips on an 8S-sided image -/

/-- C7: for an `L × L` board image with `L = 8 * S`, `split_board` returns
exactly 64 sub-images, each `S × S` (outer loop over rows, inner over
columns), and reassembling them in that row-major order reconstructs the
original image pixel for pixel. -/
theorem c7_split_board_roundtrip {A : Type} (img : List (List A)) (S : Nat)
    (himg : img.length = 8 * S) (hrows : ∀ row ∈ img, row.length = 8 * S) :
    (split_board img).length = 64 ∧
    (∀ sq ∈ split_board img, sq.length = S ∧ ∀ row ∈ sq, row.length = S) ∧
    reassemble S (split_board img) = img := by
  have hs : img.length / 8 = S := by omega
  have hrows2 : ∀ row ∈ img, row.length = img.length := by
    intro row hrow; rw [himg]; exact hrows row hrow
  refine ⟨split_board_length img, ?_, ?_⟩
  · intro sq hsq
    have h := split_board_dims img hrows2 sq hsq
    rw [hs] at h
    exact h
  · unfold reassemble
    have hband : ∀ i ∈ List.range 8,
        hstackBand S (pySlice (8 * i) (8 * i + 8) (split_board img)) =
        pySlice (i * S) ((i + 1) * S) img := by
      intro i hi
      rw [split_board_band img S himg i (List.mem_range.mp hi)]
      apply hstackBand_band
      · rw [pySlice_length]
        have h1 : (i + 1) * S = i * S + S := Nat.succ_mul i S
        have h2 : (i + 1) * S ≤ 8 * S :=
          Nat.mul_le_mul_right _ (List.mem_range.mp hi)
        omega
      · intro row hrow
        have hr0img : row ∈ img := by
          have h1 : row ∈ img.drop (i * S) := (List.take_sublist _ _).subset hrow
          exact (List.drop_sublist _ _).subset h1
        exact hrows row hr0img
    rw [List.flatMap_def, List.map_congr_left hband, ← List.flatMap_def]
    rw [slice_join S 8 img, ← himg, List.take_length]

/-- Witness for `c7_split_board_roundtrip` on a concrete 8×8 image
(`S = 1`). -/
theorem c7_split_board_roundtrip_witness :
    (split_board ([[0, 1, 2, 3, 4, 5, 6, 7],
     [8, 9, 10, 11, 12, 13, 14, 15],
     [16, 17, 18, 19, 20, 21, 22, 23],
     [24, 25, 26, 27, 28, 29, 30, 31],
     [32, 33, 34, 35, 36, 37, 38, 39],
     [40, 41, 42, 43, 44, 45, 46, 47],
     [48, 49, 50, 51, 52, 53, 54, 55],
     [56, 57, 58, 59, 60, 61, 62, 63]] : List (List Nat))).length = 64 ∧
    (∀ sq ∈ split_board ([[0, 1, 2, 3, 4, 5, 6, 7],
     [8, 9, 10, 11, 12, 13, 14, 15],
     [16, 17, 18, 19, 20, 21, 22, 23],
     [24, 25, 26, 27, 28, 29, 30, 31],
     [32, 33, 34, 35, 36, 37, 38, 39],
     [40, 41, 42, 43, 44, 45, 46, 47],
     [48, 49, 50, 51, 52, 53, 54, 55],
     [56, 57, 58, 59, 60, 61, 62, 63]] : List (List Nat)),
      sq.length = 1 ∧ ∀ row ∈ sq, row.length = 1) ∧
    reassemble 1 (split_board ([[0, 1, 2, 3, 4, 5, 6, 7],
     [8, 9, 10, 11, 12, 13, 14, 15],
     [16, 17, 18, 19, 20, 21, 22, 23],
     [24, 25, 26, 27, 28, 29, 30, 31],
     [32, 33, 34, 35, 36, 37, 38, 39],
     [40, 41, 42, 43, 44, 45, 46, 47],
     [48, 49, 50, 51, 52, 53, 54, 55],
     [56, 57, 58, 59, 60, 61, 62, 63]] : List (List Nat))) =
      [[0, 1, 2, 3, 4, 5, 6, 7],
     [8, 9, 10, 11, 12, 13, 14, 15],
     [16, 17, 18, 19, 20, 21, 22, 23],
     [24, 25, 26, 27, 28, 29, 30, 31],
     [32, 33, 34, 35, 36, 37, 38, 39],
     [40, 41, 42, 43, 44, 45, 46, 47],
     [48, 49, 50, 51, 52, 53, 54, 55],
     [56, 57, 58, 59, 60, 61, 62, 63]] :=
  c7_split_board_roundtrip _ 1 (by decide) (by decide)

/-! ## C8 (corrected): no dimension check in the board splitter -/

/-- Counterexample to C8 as stated: on a 9×9 image (side not a multiple
of 8) `split_board` does not fail; it returns a result of 64 sub-images,
each `⌊9/8⌋ × ⌊9/8⌋ = 1 × 1`, silently ignoring the ninth row and column. -/
theorem c8_split_board_counterexample :
    (split_board ([[0, 1, 2, 3, 4, 5, 6, 7, 8],
     [9, 10, 11, 12, 13, 14, 15, 16, 17],
     [18, 19, 20, 21, 22, 23, 24, 25, 26],
     [27, 28, 29, 30, 31, 32, 33, 34, 35],
     [36, 37, 38, 39, 40, 41, 42, 43, 44],
     [45, 46, 47, 48, 49, 50, 51, 52, 53],
     [54, 55, 56, 57, 58, 59, 60, 61, 62],
     [63, 64, 65, 66, 67, 68, 69, 70, 71],
     [72, 73, 74, 75, 76, 77, 78, 79, 80]] : List (List Nat))).length = 64 ∧
    ∀ sq ∈ split_board ([[0, 1, 2, 3, 4, 5, 6, 7, 8],
     [9, 10, 11, 12, 13, 14, 15, 16, 17],
     [18, 19, 20, 21, 22, 23, 24, 25, 26],
     [27, 28, 29, 30, 31, 32, 33, 34, 35],
     [36, 37, 38, 39, 40, 41, 42, 43, 44],
     [45, 46, 47, 48, 49, 50, 51, 52, 53],
     [54, 55, 56, 57, 58, 59, 60, 61, 62],
     [63, 64, 65, 66, 67, 68, 69, 70, 71],
     [72, 73, 74, 75, 76, 77, 78, 79, 80]] : List (List Nat)),
      sq.length = 1 ∧ ∀ row ∈ sq, row.length = 1 := by
  decide

/-- C8 (amended): for a square board image whose side `L` is not a
positive multiple of 8, `split_board` does not fail with any error: it
still returns 64 sub-images, each of side `L / 8` (integer division),
silently discarding the remaining pixels. -/
theorem c8_split_board_no_error {A : Type} (img : List (List A))
    (hrows : ∀ row ∈ img, row.length = img.length)
    (_hnm : ¬ 8 ∣ img.length) :
    (split_board img).length = 64 ∧
    ∀ sq ∈ split_board img,
      sq.length = img.length / 8 ∧ ∀ row ∈ sq, row.length = img.length / 8 :=
  ⟨split_board_length img, split_board_dims img hrows⟩

/-- Witness for `c8_split_board_no_error` on a concrete 12×12 image
(`12 = 8 + 4` is not a multiple of 8; each sub-image is 1×1). -/
theorem c8_split_board_no_error_witness :
    (split_board ([[0, 1, 2, 3, 4, 5, 6, 7, 8, 9, 10, 11],
     [12, 13, 14, 15, 16, 17, 18, 19, 20, 21, 22, 23],
     [24, 25, 26, 27, 28, 29, 30, 31, 32, 33, 34, 35],
     [36, 37, 38, 39, 40, 41, 42, 43, 44, 45, 46, 47],
     [48, 49, 50, 51, 52, 53, 54, 55, 56, 57, 58, 59],
     [60, 61, 62, 63, 64, 65, 66, 67, 68, 69, 70, 71],
     [72, 73, 74, 75, 76, 77, 78, 79, 80, 81, 82, 83],
     [84, 85, 86, 87, 88, 89, 90, 91, 92, 93, 94, 95],
     [96, 97, 98, 99, 100, 101, 102, 103, 104, 105, 106, 107],
     [108, 109, 110, 111, 112, 113, 114, 115, 116, 117, 118, 119],
     [120, 121, 122, 123, 124, 125, 126, 127, 128, 129, 130, 131],
     [132, 133, 134, 135, 136, 137, 138, 139, 140, 141, 142, 143]] : List (List Nat))).length = 64 ∧
    ∀ sq ∈ split_board ([[0, 1, 2, 3, 4, 5, 6, 7, 8, 9, 10, 11],
     [12, 13, 14, 15, 16, 17, 18, 19, 20, 21, 22, 23],
     [24, 25, 26, 27, 28, 29, 30, 31, 32, 33, 34, 35],
     [36, 37, 38, 39, 40, 41, 42, 43, 44, 45, 46, 47],
     [48, 49, 50, 51, 52, 53, 54, 55, 56, 57, 58, 59],
     [60, 61, 62, 63, 64, 65, 66, 67, 68, 69, 70, 71],
     [72, 73, 74, 75, 76, 77, 78, 79, 80, 81, 82, 83],
     [84, 85, 86, 87, 88, 89, 90, 91, 92, 93, 94, 95],
     [96, 97, 98, 99, 100, 101, 102, 103, 104, 105, 106, 107],
     [108, 109, 110, 111, 112, 113, 114, 115, 116, 117, 118, 119],
     [120, 121, 122, 123, 124, 125, 126, 127, 128, 129, 130, 131],
     [132, 133, 134, 135, 136, 137, 138, 139, 140, 141, 142, 143]] : List (List Nat)),
      sq.length = ([[0, 1, 2, 3, 4, 5, 6, 7, 8, 9, 10, 11],
     [12, 13, 14, 15, 16, 17, 18, 19, 20, 21, 22, 23],
     [24, 25, 26, 27, 28, 29, 30, 31, 32, 33, 34, 35],
     [36, 37, 38, 39, 40, 41, 42, 43, 44, 45, 46, 47],
     [48, 49, 50, 51, 52, 53, 54, 55, 56, 57, 58, 59],
     [60, 61, 62, 63, 64, 65, 66, 67, 68, 69, 70, 71],
     [72, 73, 74, 75, 76, 77, 78, 79, 80, 81, 82, 83],
     [84, 85, 86, 87, 88, 89, 90, 91, 92, 93, 94, 95],
     [96, 97, 98, 99, 100, 101, 102, 103, 104, 105, 106, 107],
     [108, 109, 110, 111, 112, 113, 114, 115, 116, 117, 118, 119],
     [120, 121, 122, 123, 124, 125, 126, 127, 128, 129, 130, 131],
     [132, 133, 134, 135, 136, 137, 138, 139, 140, 141, 142, 143]] : List (List Nat)).length / 8 ∧
      ∀ row ∈ sq, row.length = ([[0, 1, 2, 3, 4, 5, 6, 7, 8, 9, 10, 11],
     [12, 13, 14, 15, 16, 17, 18, 19, 20, 21, 22, 23],
     [24, 25, 26, 27, 28, 29, 30, 31, 32, 33, 34, 35],
     [36, 37, 38, 39, 40, 41, 42, 43, 44, 45, 46, 47],
     [48, 49, 50, 51, 52, 53, 54, 55, 56, 57, 58, 59],
     [60, 61, 62, 63, 64, 65, 66, 67, 68, 69, 70, 71],
     [72, 73, 74, 75, 76, 77, 78, 79, 80, 81, 82, 83],
     [84, 85, 86, 87, 88, 89, 90, 91, 92, 93, 94, 95],
     [96, 97, 98, 99, 100, 101, 102, 103, 104, 105, 106, 107],
     [108, 109, 110, 111, 112, 113, 114, 115, 116, 117, 118, 119],
     [120, 121, 122, 123, 124, 125, 126, 127, 128, 129, 130, 131],
     [132, 133, 134, 135, 136, 137, 138, 139, 140, 141, 142, 143]] : List (List Nat)).length / 8 :=
  c8_split_board_no_error _ (by decide) (by decide)

/-! ## C9: the line classifier is a total, disjoint, order-preserving
partition -/

/-- C9: `hor_vert_lines` puts every input line in exactly one of the two
output sequences — in `v` when `theta < pi/4` or `theta > 3*pi/4`,
in `h` otherwise — so `h ++ v` is a permutation of the input,
`|H| + |V|` equals the input size, and each output preserves the input
relative order (both are sublists of the input). -/
theorem c9_hor_vert_lines_partition (lines : List Line) :
    ((hor_vert_lines lines).1 ++ (hor_vert_lines lines).2).Perm lines ∧
    (hor_vert_lines lines).1.length + (hor_vert_lines lines).2.length = lines.length ∧
    (hor_vert_lines lines).1.Sublist lines ∧
    (hor_vert_lines lines).2.Sublist lines ∧
    (∀ l ∈ (hor_vert_lines lines).1,
      ¬ (l.2 < Real.pi / 4 ∨ l.2 > Real.pi - Real.pi / 4)) ∧
    (∀ l ∈ (hor_vert_lines lines).2,
      l.2 < Real.pi / 4 ∨ l.2 > Real.pi - Real.pi / 4) := by
  induction lines with
  | nil => simp [hor_vert_lines]
  | cons l ls ih =>
    obtain ⟨ihPerm, ihLen, ihSub1, ihSub2, ihH, ihV⟩ := ih
    by_cases hc : l.2 < Real.pi / 4 ∨ l.2 > Real.pi - Real.pi / 4
    · simp only [hor_vert_lines]
      rw [if_pos hc]
      refine ⟨?_, ?_, ?_, ?_, ?_, ?_⟩
      · exact List.perm_middle.trans (ihPerm.cons l)
      · simp only [List.length_cons, List.length_append] at *
        omega
      · exact ihSub1.cons l
      · exact ihSub2.cons₂ l
      · exact ihH
      · intro x hx
        rcases List.mem_cons.mp hx with rfl | hx2
        · exact hc
        · exact ihV x hx2
    · simp only [hor_vert_lines]
      rw [if_neg hc]
      refine ⟨?_, ?_, ?_, ?_, ?_, ?_⟩
      · exact ihPerm.cons l
      · simp only [List.length_cons, List.length_append] at *
        omega
      · exact ihSub1.cons₂ l
      · exact ihSub2.cons l
      · intro x hx
        rcases List.mem_cons.mp hx with rfl | hx2
        · exact hc
        · exact ihH x hx2
      · exact ihV

/-! ## Intersection engine -/

theorem solveLine_sat (l1 l2 : Line) (h : lineDet l1 l2 ≠ 0) :
    ∃ p : ℝ × ℝ, solveLine l1 l2 = .ok p ∧
      p.1 * Real.cos l1.2 + p.2 * Real.sin l1.2 = l1.1 ∧
      p.1 * Real.cos l2.2 + p.2 * Real.sin l2.2 = l2.1 := by
  refine ⟨((l1.1 * Real.sin l2.2 - l2.1 * Real.sin l1.2) / lineDet l1 l2,
           (Real.cos l1.2 * l2.1 - Real.cos l2.2 * l1.1) / lineDet l1 l2), ?_, ?_, ?_⟩
  · rw [solveLine, if_neg h]
  · simp only [lineDet] at h ⊢
    field_simp
    ring
  · simp only [lineDet] at h ⊢
    field_simp
    ring

theorem intersectRow_sat (l1 : Line) (v : List Line)
    (hns : ∀ l2 ∈ v, lineDet l1 l2 ≠ 0) :
    ∃ ps, intersectRow l1 v = .ok ps ∧ ps.length = v.length ∧
      ∀ (j : Nat) (hj : j < v.length), ∃ p : ℝ × ℝ, ps[j]? = some p ∧
        p.1 * Real.cos l1.2 + p.2 * Real.sin l1.2 = l1.1 ∧
        p.1 * Real.cos v[j].2 + p.2 * Real.sin v[j].2 = v[j].1 := by
  induction v with
  | nil => exact ⟨[], rfl, rfl, fun j hj => absurd hj (by simp)⟩
  | cons l2 v ih =>
    obtain ⟨p, hp, hp1, hp2⟩ := solveLine_sat l1 l2 (hns l2 (List.mem_cons_self l2 v))
    obtain ⟨ps, hps, hlen, hidx⟩ := ih (fun x hx => hns x (List.mem_cons_of_mem _ hx))
    refine ⟨p :: ps, ?_, by simp [hlen], ?_⟩
    · rw [intersectRow, hp, hps, exceptBind_ok]
      rfl
    · intro j hj
      cases j with
      | zero => exact ⟨p, by simp, hp1, hp2⟩
      | succ j =>
        obtain ⟨q, hq, hq1, hq2⟩ := hidx j (by simpa using hj)
        exact ⟨q, by simpa using hq, hq1, by simpa using hq2⟩

/-- C3: when no horizontal/vertical pair is parallel (all 2×2 systems are
regular), `intersections` succeeds with exactly `|H| * |V|` points, in
H-major V-minor order: the point at index `i * |V| + j` solves both line
equations `x cos θ + y sin θ = ρ` of `H[i]` and `V[j]` exactly. -/
theorem c3_intersections_correct (h v : List Line)
    (hnp : ∀ l1 ∈ h, ∀ l2 ∈ v, lineDet l1 l2 ≠ 0) :
    ∃ pts, intersections h v = .ok pts ∧ pts.length = h.length * v.length ∧
      ∀ (i j : Nat) (hi : i < h.length) (hj : j < v.length),
        ∃ p : ℝ × ℝ, pts[i * v.length + j]? = some p ∧
          p.1 * Real.cos h[i].2 + p.2 * Real.sin h[i].2 = h[i].1 ∧
          p.1 * Real.cos v[j].2 + p.2 * Real.sin v[j].2 = v[j].1 := by
  induction h with
  | nil => exact ⟨[], rfl, by simp, fun i j hi hj => absurd hi (by simp)⟩
  | cons l1 hs ih =>
    obtain ⟨row, hrow, hrlen, hridx⟩ :=
      intersectRow_sat l1 v (hnp l1 (List.mem_cons_self l1 hs))
    obtain ⟨rest, hrest, hrestlen, hrestidx⟩ :=
      ih (fun x hx => hnp x (List.mem_cons_of_mem _ hx))
    refine ⟨row ++ rest, ?_, ?_, ?_⟩
    · rw [intersections, hrow, hrest, exceptBind_ok]
      rfl
    · rw [List.length_append, hrlen, hrestlen, List.length_cons]
      ring
    · intro i j hi hj
      cases i with
      | zero =>
        obtain ⟨p, hp, hp1, hp2⟩ := hridx j hj
        refine ⟨p, ?_, by simpa using hp1, hp2⟩
        rw [show 0 * v.length + j = j from by ring]
        rw [List.getElem?_append_left (by omega : j < row.length)]
        exact hp
      | succ i =>
        obtain ⟨p, hp, hp1, hp2⟩ := hrestidx i j (by simpa using hi) hj
        refine ⟨p, ?_, by simpa using hp1, hp2⟩
        rw [show (i + 1) * v.length + j = row.length + (i * v.length + j) from by
          rw [hrlen]; ring]
        rw [List.getElem?_append_right
          (by omega : row.length ≤ row.length + (i * v.length + j))]
        rw [Nat.add_sub_cancel_left]
        exact hp

/-- Witness for `c3_intersections_correct`: one horizontal line
`ρ = 2, θ = π/2` against one vertical line `ρ = 3, θ = 0`. -/
theorem c3_intersections_correct_witness :
    ∃ pts, intersections [((2 : ℝ), Real.pi / 2)] [((3 : ℝ), (0 : ℝ))] = .ok pts ∧
      pts.length = [((2 : ℝ), Real.pi / 2)].length * [((3 : ℝ), (0 : ℝ))].length ∧
      ∀ (i j : Nat) (hi : i < [((2 : ℝ), Real.pi / 2)].length)
        (hj : j < [((3 : ℝ), (0 : ℝ))].length),
        ∃ p : ℝ × ℝ,
          pts[i * [((3 : ℝ), (0 : ℝ))].length + j]? = some p ∧
          p.1 * Real.cos [((2 : ℝ), Real.pi / 2)][i].2 +
            p.2 * Real.sin [((2 : ℝ), Real.pi / 2)][i].2 =
              [((2 : ℝ), Real.pi / 2)][i].1 ∧
          p.1 * Real.cos [((3 : ℝ), (0 : ℝ))][j].2 +
            p.2 * Real.sin [((3 : ℝ), (0 : ℝ))][j].2 = [((3 : ℝ), (0 : ℝ))][j].1 :=
  c3_intersections_correct [((2 : ℝ), Real.pi / 2)] [((3 : ℝ), (0 : ℝ))] (by
    intro l1 h1 l2 h2
    rw [List.mem_singleton] at h1 h2
    subst h1
    subst h2
    simp only [lineDet]
    rw [Real.cos_pi_div_two, Real.sin_pi_div_two, Real.sin_zero, Real.cos_zero]
    norm_num)

theorem intersectRow_error_only (l1 : Line) :
    ∀ (v : List Line) (e : CbError), intersectRow l1 v = .error e →
      e = .singularSystem := by
  intro v
  induction v with
  | nil => intro e he; cases he
  | cons x v ih =>
    intro e he
    rw [intersectRow] at he
    by_cases hx : lineDet l1 x = 0
    · rw [solveLine, if_pos hx, exceptBind_error] at he
      cases he
      rfl
    · rw [solveLine, if_neg hx, exceptBind_ok] at he
      cases hr : intersectRow l1 v with
      | error e2 =>
        rw [hr, exceptBind_error] at he
        cases he
        exact ih _ hr
      | ok ps =>
        rw [hr, exceptBind_ok] at he
        cases he

theorem intersectRow_error_of_singular (l1 : Line) (v : List Line) (l2 : Line)
    (hmem : l2 ∈ v) (hsing : lineDet l1 l2 = 0) :
    intersectRow l1 v = .error .singularSystem := by
  induction v with
  | nil => cases hmem
  | cons x v ih =>
    rw [intersectRow]
    rcases List.mem_cons.mp hmem with rfl | hmem2
    · rw [solveLine, if_pos hsing, exceptBind_error]
    · by_cases hx : lineDet l1 x = 0
      · rw [solveLine, if_pos hx, exceptBind_error]
      · rw [solveLine, if_neg hx, exceptBind_ok, ih hmem2, exceptBind_error]

theorem intersections_error_of_singular (h v : List Line) (l1 l2 : Line)
    (h1 : l1 ∈ h) (h2 : l2 ∈ v) (hsing : lineDet l1 l2 = 0) :
    intersections h v = .error .singularSystem := by
  induction h with
  | nil => cases h1
  | cons x hs ih =>
    rw [intersections]
    rcases List.mem_cons.mp h1 with rfl | hmem
    · rw [intersectRow_error_of_singular l1 v l2 h2 hsing, exceptBind_error]
    · cases hr : intersectRow x v with
      | error e =>
        rw [exceptBind_error, intersectRow_error_only x v e hr]
      | ok ps =>
        rw [exceptBind_ok, ih hmem, exceptBind_error]

/-- Counterexample to C4 as stated: on a single parallel pair (both lines
with `θ = 0`) `intersections` does not skip the pair and continue; the
singular-system failure escapes to the caller. -/
theorem c4_counterexample :
    intersections [((0 : ℝ), 0)] [((1 : ℝ), 0)] = .error .singularSystem := by
  have hs : lineDet ((0 : ℝ), 0) ((1 : ℝ), 0) = 0 := by
    simp [lineDet]
  rw [intersections, intersectRow, solveLine, if_pos hs, exceptBind_error,
    exceptBind_error]

/-- C4 (amended): whenever the input contains a parallel
horizontal/vertical pair (zero determinant), `intersections` fails with
the singular-system error, which propagates to the caller; no pair is
skipped. -/
theorem c4_singular_pair_error (h v : List Line) (l1 l2 : Line)
    (h1 : l1 ∈ h) (h2 : l2 ∈ v) (hpar : lineDet l1 l2 = 0) :
    intersections h v = .error .singularSystem :=
  intersections_error_of_singular h v l1 l2 h1 h2 hpar

/-- Witness for `c4_singular_pair_error`: two lines with `θ = π/4` on
both sides. -/
theorem c4_singular_pair_error_witness :
    intersections [((0 : ℝ), Real.pi / 4)] [((5 : ℝ), Real.pi / 4)] =
      .error .singularSystem :=
  c4_singular_pair_error _ _ ((0 : ℝ), Real.pi / 4) ((5 : ℝ), Real.pi / 4)
    (by simp) (by simp) (by simp [lineDet, mul_comm])

/-! ## C10: the clusterer needs at least two points -/

/-- C10: `cluster` fails (the hierarchy step rejects the empty pairwise
distance matrix) exactly when the input has fewer than two points, and
succeeds exactly when it has at least two; so `|points| ≥ 2` is the
precondition under which the error branch is unreachable. -/
theorem c10_cluster_needs_two {K : Type} [LinearOrderedField K]
    (pts : List (Pt K)) (maxd : K) :
    ((∃ e, cluster pts maxd = .error e) ↔ pts.length < 2) ∧
    ((∃ cs, cluster pts maxd = .ok cs) ↔ 2 ≤ pts.length) := by
  by_cases h2 : pts.length < 2
  · simp only [cluster, if_pos h2]
    refine ⟨⟨fun _ => h2, fun _ => ⟨.emptyDistanceMatrix, rfl⟩⟩, ?_, ?_⟩
    · rintro ⟨cs, hcs⟩
      cases hcs
    · intro hge
      omega
  · simp only [cluster, if_neg h2]
    refine ⟨⟨?_, fun hlt => absurd hlt h2⟩, fun _ => by omega, fun _ => ⟨_, rfl⟩⟩
    rintro ⟨e, he⟩
    cases he

/-! ## Point clusterer: single-link chain characterisation -/

theorem dist2_comm {K : Type} [LinearOrderedField K] (p q : Pt K) :
    dist2 p q = dist2 q p := by
  simp only [dist2]
  ring

theorem dist2_self {K : Type} [LinearOrderedField K] (p : Pt K) :
    dist2 p p = 0 := by
  simp [dist2]

theorem chainStep_symm {K : Type} [LinearOrderedField K]
    (pts : List (Pt K)) (maxd2 : K) :
    Symmetric (chainStep pts maxd2) := by
  rintro a b ⟨ha, hb, hd⟩
  exact ⟨hb, ha, by rwa [dist2_comm]⟩

theorem chained_symm {K : Type} [LinearOrderedField K]
    {pts : List (Pt K)} {maxd2 : K} {a b : Pt K}
    (h : Chained pts maxd2 a b) : Chained pts maxd2 b a :=
  Relation.ReflTransGen.symmetric (chainStep_symm pts maxd2) h

theorem chained_mono {K : Type} [LinearOrderedField K]
    {s1 s2 : List (Pt K)} {maxd2 : K}
    (hsub : ∀ x, x ∈ s1 → x ∈ s2) {a b : Pt K} (h : Chained s1 maxd2 a b) :
    Chained s2 maxd2 a b := by
  refine Relation.ReflTransGen.mono ?_ h
  rintro x y ⟨hx, hy, hd⟩
  exact ⟨hsub x hx, hsub y hy, hd⟩

theorem nearGroup_iff {K : Type} [LinearOrderedField K]
    (maxd2 : K) (p : Pt K) (g : List (Pt K)) :
    nearGroup maxd2 p g = true ↔ ∃ q ∈ g, dist2 p q ≤ maxd2 := by
  simp [nearGroup]

theorem groupInv_congr {K : Type} [LinearOrderedField K]
    {maxd2 : K} {s1 s2 : List (Pt K)} {gs : List (List (Pt K))}
    (hss : ∀ x, x ∈ s1 ↔ x ∈ s2) (h : GroupInv maxd2 s1 gs) :
    GroupInv maxd2 s2 gs := by
  obtain ⟨h1, h2, h3, h4, h5⟩ := h
  refine ⟨?_, ?_, h3, ?_, ?_⟩
  · intro g hg x hx
    exact (hss x).mp (h1 g hg x hx)
  · intro x hx
    exact h2 x ((hss x).mpr hx)
  · intro a ha b hb hd
    exact h4 a ((hss a).mpr ha) b ((hss b).mpr hb) hd
  · intro g hg a ha b hb
    exact chained_mono (fun x hx => (hss x).mp hx) (h5 g hg a ha b hb)

theorem addPoint_inv {K : Type} [LinearOrderedField K] {maxd2 : K} (hm : 0 ≤ maxd2)
    {seen : List (Pt K)} {gs : List (List (Pt K))}
    (hinv : GroupInv maxd2 seen gs) (p : Pt K) :
    GroupInv maxd2 (p :: seen) (addPoint maxd2 gs p) := by
  obtain ⟨h1, h2, h3, h4, h5⟩ := hinv
  unfold addPoint
  rw [List.partition_eq_filter_filter]
  simp only []
  set near := gs.filter (nearGroup maxd2 p) with hnearDef
  set far := gs.filter (not ∘ nearGroup maxd2 p) with hfarDef
  have hnearP : ∀ g ∈ near, ∃ q ∈ g, dist2 p q ≤ maxd2 := by
    intro g hg
    exact (nearGroup_iff maxd2 p g).mp (List.of_mem_filter hg)
  have hfarP : ∀ g ∈ far, ∀ q ∈ g, ¬ dist2 p q ≤ maxd2 := by
    intro g hg q hq hle
    have hfals : (not ∘ nearGroup maxd2 p) g = true := List.of_mem_filter hg
    have htrue : nearGroup maxd2 p g = true := (nearGroup_iff maxd2 p g).mpr ⟨q, hq, hle⟩
    simp only [Function.comp_apply, htrue] at hfals
    cases hfals
  have hnear_sub : ∀ g ∈ near, g ∈ gs := fun g hg => List.mem_of_mem_filter hg
  have hfar_sub : ∀ g ∈ far, g ∈ gs := fun g hg => List.mem_of_mem_filter hg
  have hcover : ∀ g ∈ gs, g ∈ near ∨ g ∈ far := by
    intro g hg
    by_cases hp : nearGroup maxd2 p g = true
    · exact Or.inl (List.mem_filter.mpr ⟨hg, hp⟩)
    · exact Or.inr (List.mem_filter.mpr ⟨hg, by simp [Function.comp_apply, hp]⟩)
  have hDisjSymm : Symmetric (fun g h : List (Pt K) => ∀ x ∈ g, x ∉ h) := by
    intro g h hgh x hxh hxg
    exact hgh x hxg hxh
  have hdisj : ∀ g1 ∈ gs, ∀ g2 ∈ gs, g1 ≠ g2 → ∀ x ∈ g1, x ∉ g2 := by
    intro g1 hg1 g2 hg2 hne
    exact h3.forall hDisjSymm hg1 hg2 hne
  refine ⟨?_, ?_, ?_, ?_, ?_⟩
  · intro g hg x hx
    rcases List.mem_cons.mp hg with rfl | hgfar
    · rcases List.mem_cons.mp hx with rfl | hxf
      · exact List.mem_cons_self x seen
      · obtain ⟨g0, hg0, hxg0⟩ := List.mem_flatten.mp hxf
        exact List.mem_cons_of_mem p (h1 g0 (hnear_sub g0 hg0) x hxg0)
    · exact List.mem_cons_of_mem p (h1 g (hfar_sub g hgfar) x hx)
  · intro x hx
    rcases List.mem_cons.mp hx with rfl | hxseen
    · exact ⟨x :: near.flatten, List.mem_cons_self _ _, List.mem_cons_self _ _⟩
    · obtain ⟨g, hg, hxg⟩ := h2 x hxseen
      rcases hcover g hg with hgn | hgf
      · exact ⟨p :: near.flatten, List.mem_cons_self _ _,
          List.mem_cons_of_mem p (List.mem_flatten.mpr ⟨g, hgn, hxg⟩)⟩
      · exact ⟨g, List.mem_cons_of_mem _ hgf, hxg⟩
  · refine List.Pairwise.cons ?_ (List.Pairwise.sublist (List.filter_sublist gs) h3)
    intro g2 hg2 x hx hxg2
    rcases List.mem_cons.mp hx with rfl | hxf
    · exact hfarP g2 hg2 x hxg2 (by rw [dist2_self]; exact hm)
    · obtain ⟨g0, hg0, hxg0⟩ := List.mem_flatten.mp hxf
      have hne : g0 ≠ g2 := by
        intro heq
        have ht : nearGroup maxd2 p g0 = true := List.of_mem_filter hg0
        have hf : (not ∘ nearGroup maxd2 p) g2 = true := List.of_mem_filter hg2
        simp only [Function.comp_apply, ← heq, ht] at hf
        cases hf
      exact hdisj g0 (hnear_sub g0 hg0) g2 (hfar_sub g2 hg2) hne x hxg0 hxg2
  · intro a ha b hb hd
    rcases List.mem_cons.mp ha with rfl | haseen
    · rcases List.mem_cons.mp hb with rfl | hbseen
      · exact ⟨b :: near.flatten, List.mem_cons_self _ _,
          List.mem_cons_self _ _, List.mem_cons_self _ _⟩
      · obtain ⟨g, hg, hbg⟩ := h2 b hbseen
        have hgn : g ∈ near := List.mem_filter.mpr
          ⟨hg, (nearGroup_iff maxd2 a g).mpr ⟨b, hbg, hd⟩⟩
        exact ⟨a :: near.flatten, List.mem_cons_self _ _, List.mem_cons_self _ _,
          List.mem_cons_of_mem a (List.mem_flatten.mpr ⟨g, hgn, hbg⟩)⟩
    · rcases List.mem_cons.mp hb with rfl | hbseen
      · obtain ⟨g, hg, hag⟩ := h2 a haseen
        have hgn : g ∈ near := List.mem_filter.mpr
          ⟨hg, (nearGroup_iff maxd2 b g).mpr ⟨a, hag, by rwa [dist2_comm] at hd⟩⟩
        exact ⟨b :: near.flatten, List.mem_cons_self _ _,
          List.mem_cons_of_mem b (List.mem_flatten.mpr ⟨g, hgn, hag⟩),
          List.mem_cons_self _ _⟩
      · obtain ⟨g, hg, hag, hbg⟩ := h4 a haseen b hbseen hd
        rcases hcover g hg with hgn | hgf
        · exact ⟨p :: near.flatten, List.mem_cons_self _ _,
            List.mem_cons_of_mem p (List.mem_flatten.mpr ⟨g, hgn, hag⟩),
            List.mem_cons_of_mem p (List.mem_flatten.mpr ⟨g, hgn, hbg⟩)⟩
        · exact ⟨g, List.mem_cons_of_mem _ hgf, hag, hbg⟩
  · intro g hg a ha b hb
    rcases List.mem_cons.mp hg with rfl | hgfar
    · have hto_p : ∀ x ∈ p :: near.flatten, Chained (p :: seen) maxd2 x p := by
        intro x hx
        rcases List.mem_cons.mp hx with rfl | hxf
        · exact Relation.ReflTransGen.refl
        · obtain ⟨g0, hg0, hxg0⟩ := List.mem_flatten.mp hxf
          obtain ⟨q, hqg0, hqd⟩ := hnearP g0 hg0
          have hxq : Chained (p :: seen) maxd2 x q :=
            chained_mono (fun y hy => List.mem_cons_of_mem p hy)
              (h5 g0 (hnear_sub g0 hg0) x hxg0 q hqg0)
          refine hxq.tail ?_
          exact ⟨List.mem_cons_of_mem p (h1 g0 (hnear_sub g0 hg0) q hqg0),
            List.mem_cons_self p seen, by rwa [dist2_comm]⟩
      exact (hto_p a ha).trans (chained_symm (hto_p b hb))
    · exact chained_mono (fun y hy => List.mem_cons_of_mem p hy)
        (h5 g (hfar_sub g hgfar) a ha b hb)

theorem foldl_addPoint_inv {K : Type} [LinearOrderedField K]
    {maxd2 : K} (hm : 0 ≤ maxd2) :
    ∀ (rest seen : List (Pt K)) (gs : List (List (Pt K))),
      GroupInv maxd2 seen gs →
      GroupInv maxd2 (rest ++ seen) (rest.foldl (addPoint maxd2) gs) := by
  intro rest
  induction rest with
  | nil =>
    intro seen gs h
    simpa using h
  | cons p rest ih =>
    intro seen gs h
    rw [List.foldl_cons]
    refine groupInv_congr ?_ (ih (p :: seen) (addPoint maxd2 gs p) (addPoint_inv hm h p))
    intro x
    simp only [List.mem_append, List.mem_cons]
    tauto

theorem clusterGroups_inv {K : Type} [LinearOrderedField K]
    (pts : List (Pt K)) (maxd2 : K) (hm : 0 ≤ maxd2) :
    GroupInv maxd2 pts (clusterGroups pts maxd2) := by
  have hbase : GroupInv maxd2 [] ([] : List (List (Pt K))) := by
    refine ⟨?_, ?_, List.Pairwise.nil, ?_, ?_⟩ <;> simp
  have h := foldl_addPoint_inv hm pts [] [] hbase
  rw [List.append_nil] at h
  exact h

theorem sameGroup_trans {K : Type} [LinearOrderedField K]
    {gs : List (List (Pt K))}
    (hpair : List.Pairwise (fun g h => ∀ x ∈ g, x ∉ h) gs) {p b c : Pt K}
    (hone : ∃ g ∈ gs, p ∈ g ∧ b ∈ g) (htwo : ∃ g ∈ gs, b ∈ g ∧ c ∈ g) :
    ∃ g ∈ gs, p ∈ g ∧ c ∈ g := by
  obtain ⟨g1, hg1, hp, hb1⟩ := hone
  obtain ⟨g2, hg2, hb2, hc⟩ := htwo
  by_cases hgg : g1 = g2
  · subst hgg
    exact ⟨g1, hg1, hp, hc⟩
  · have hsymm : Symmetric (fun g h : List (Pt K) => ∀ x ∈ g, x ∉ h) := by
      intro g h hgh x hxh hxg
      exact hgh x hxg hxh
    exact absurd hb2 (hpair.forall hsymm hg1 hg2 hgg b hb1)

/-- C2: `cluster` (for at least two points, so that the scipy stage
accepts the input) returns one centroid — the arithmetic mean of the
members' coordinates — per cluster, where two input points lie in the same
cluster exactly when they are connected by a chain of input points whose
consecutive Euclidean distances are at most `max_dist` (single-link
chaining, stated on squared distances). -/
theorem c2_cluster_single_link {K : Type} [LinearOrderedField K]
    (pts : List (Pt K)) (maxd : K) (h2 : 2 ≤ pts.length) :
    ∃ gs : List (List (Pt K)),
      cluster pts maxd = .ok (gs.map centroid) ∧
      (∀ g ∈ gs, ∀ x ∈ g, x ∈ pts) ∧
      (∀ x ∈ pts, ∃ g ∈ gs, x ∈ g) ∧
      ∀ p q, p ∈ pts → q ∈ pts →
        ((∃ g ∈ gs, p ∈ g ∧ q ∈ g) ↔ Chained pts (maxd ^ 2) p q) := by
  obtain ⟨hmem, hcov, hpair, hstep, hchain⟩ :=
    clusterGroups_inv pts (maxd ^ 2) (sq_nonneg maxd)
  refine ⟨clusterGroups pts (maxd ^ 2), ?_, hmem, hcov, ?_⟩
  · rw [cluster, if_neg (by omega)]
  · intro p q hp hq
    constructor
    · rintro ⟨g, hg, hpg, hqg⟩
      exact hchain g hg p hpg q hqg
    · intro hch
      clear hq
      induction hch with
      | refl =>
        obtain ⟨g, hg, hpg⟩ := hcov p hp
        exact ⟨g, hg, hpg, hpg⟩
      | tail hab hbc ih =>
        obtain ⟨hbmem, hcmem, hbcd⟩ := hbc
        exact sameGroup_trans hpair ih (hstep _ hbmem _ hcmem hbcd)

/-- Witness for `c2_cluster_single_link`: three collinear points at
`x = 0, 10, 100` with `max_dist = 50`; the first two chain together, the
third is isolated. -/
theorem c2_cluster_single_link_witness :
    ∃ gs : List (List (Pt ℚ)),
      cluster ([(0, 0), (10, 0), (100, 0)] : List (Pt ℚ)) 50 = .ok (gs.map centroid) ∧
      (∀ g ∈ gs, ∀ x ∈ g, x ∈ ([(0, 0), (10, 0), (100, 0)] : List (Pt ℚ))) ∧
      (∀ x ∈ ([(0, 0), (10, 0), (100, 0)] : List (Pt ℚ)), ∃ g ∈ gs, x ∈ g) ∧
      ∀ p q, p ∈ ([(0, 0), (10, 0), (100, 0)] : List (Pt ℚ)) →
        q ∈ ([(0, 0), (10, 0), (100, 0)] : List (Pt ℚ)) →
        ((∃ g ∈ gs, p ∈ g ∧ q ∈ g) ↔
          Chained ([(0, 0), (10, 0), (100, 0)] : List (Pt ℚ)) ((50 : ℚ) ^ 2) p q) :=
  c2_cluster_single_link ([(0, 0), (10, 0), (100, 0)] : List (Pt ℚ)) 50 (by simp)

end ChessSeg
